import Mathlib

/-!
Verification of the dataroom RAG system against its specification.

The Python source is shallowly embedded: strings are handled as `String` /
`List Char`, Python dicts returned by operations become structures or
inductive results, the Chroma vector store becomes a list of records with
the query modelled as filter + sort by distance + take k, and external
collaborators (the CLIP model, the intent/answer LLMs, the PDF/CSV parser,
the system clock used for id generation) are abstract function parameters.
Machine floats of the embedder are modelled as rationals; the L2 norm
scalar computed by torch is an abstract parameter.  Python `while` loops
without a structural measure are modelled with explicit fuel, returning
`none` when the fuel runs out, so that non-termination of the source loop
is expressible as: no amount of fuel suffices.
-/

/-! ## Python string primitives (modelled on `List Char`) -/

/-- Python `str.strip()`: drop whitespace from both ends. -/
def pyStrip (l : List Char) : List Char :=
  ((l.dropWhile Char.isWhitespace).reverse.dropWhile Char.isWhitespace).reverse

/-- Python `s.split(sep)` for a one-character separator: keeps empty pieces,
`"".split(c) == [""]`. -/
def pySplit (sep : Char) : List Char → List (List Char)
  | [] => [[]]
  | c :: rest =>
    match pySplit sep rest with
    | a :: as => if c == sep then [] :: a :: as else (c :: a) :: as
    | [] => [[c]]

/-- Python `str.lower()` (ASCII case mapping suffices for the strings the
code compares). -/
def pyLower (s : String) : String := String.mk (s.data.map Char.toLower)

/-- Python `needle in hay` substring test. -/
def pySubstr (needle : List Char) : List Char → Bool
  | [] => needle.isEmpty
  | c :: rest => needle.isPrefixOf (c :: rest) || pySubstr needle rest

/-- Python truthiness of an optional string: `None` and `""` are falsy. -/
def strTruthy : Option String → Bool
  | none => false
  | some t => !(t == "")

/-! ## Chunker (`src/dataroom/rag/chunks.py`, class `DocumentChunker`) -/

/-- The metadata dict attached to a chunk.  Fields that a given chunk type
does not set are `none`. -/
structure ChunkMeta where
  file_type : String
  filename : String
  chunk_type : String
  chunk_size : Nat
  row : Option Nat := none
  total_rows : Option Nat := none
  page : Option Nat := none
  total_pages : Option Nat := none
  chunk_num : Option Nat := none
  start_pos : Option Nat := none
  end_pos : Option Nat := none
deriving Repr, DecidableEq

/-- A chunk dict as built by `DocumentChunker`. -/
structure Chunk where
  chunk_id : String
  document_id : String
  content : String
  meta : ChunkMeta
deriving Repr, DecidableEq

/-- `_split_csv_by_rows`: a line is a table line when
`line.strip().startswith('|') and '|' in line[1:]`. -/
def isTableLine (line : List Char) : Bool :=
  (match pyStrip line with
   | '|' :: _ => true
   | _ => false) && (line.drop 1).contains '|'

/-- The table lines of the markdown content, in order
(`markdown_content.split('\n')` filtered by the table-line test). -/
def tableLines (content : String) : List (List Char) :=
  (pySplit '\n' content.data).filter isTableLine

/-- The chunk built for entry `(i, line)` of the enumerated table lines
(`total` is `len(table_lines) - 1`). -/
def rowChunk (docId : String) (filename : Option String) (total : Nat)
    (p : Nat × List Char) : Chunk :=
  { chunk_id := docId ++ "_row_" ++ toString p.1
    document_id := docId
    content := String.mk (pyStrip p.2)
    meta := { file_type := "csv"
              filename := filename.getD "unknown.csv"
              chunk_type := "row"
              chunk_size := p.2.length
              row := some p.1
              total_rows := some total } }

/-- `DocumentChunker._split_csv_by_rows`.  The branch taken when no table
line is found calls `self._split_by_size`; that fallback is passed as a
function parameter (it is irrelevant when the input is a table).  The loop
over `enumerate(table_lines)` skipping index 0 is `filter`+`map`. -/
def splitCsvByRows (fallback : String → List Chunk) (docId : String)
    (filename : Option String) (content : String) : List Chunk :=
  let tls := tableLines content
  if tls.isEmpty then fallback content
  else
    (tls.enum.filter (fun p => p.1 != 0)).map
      (rowChunk docId filename (tls.length - 1))

/-- `DocumentChunker.chunk_csv_markdown`: dispatch on the `csv_row_chunk`
flag (default `True`). -/
def chunkCsvMarkdown (csvRowChunk : Bool) (fallback : String → List Chunk)
    (docId : String) (filename : Option String) (content : String) : List Chunk :=
  if csvRowChunk then splitCsvByRows fallback docId filename content
  else fallback content

/-- The sentence-boundary characters `'.\n!?'` of `_split_by_size`. -/
def boundaryChar (c : Char) : Bool :=
  c == '.' || c == '\n' || c == '!' || c == '?'

/-- The inner loop `for i in range(end, max(start + chunk_size // 2, end - 100), -1)`
of `_split_by_size`: scan `i = e, e-1, ...` down to `bound + 1` and return
the first index holding a boundary character. -/
def searchBoundary (content : List Char) (bound : Nat) : Nat → Option Nat
  | 0 => none
  | i + 1 =>
    if i + 1 ≤ bound then none
    else if boundaryChar (content.getD (i + 1) ' ') then some (i + 1)
    else searchBoundary content bound i

/-- The adjustment of `end` in `_split_by_size`: only applied when
`end < len(content)`; on success `end = i + 1`. -/
def adjustEnd (content : List Char) (start csize e : Nat) : Nat :=
  if e < content.length then
    match searchBoundary content (max (start + csize / 2) (e - 100)) e with
    | some i => i + 1
    | none => e
  else e

/-- Python slice `content[start:end]`. -/
def pySlice (l : List Char) (a b : Nat) : List Char := (l.drop a).take (b - a)

/-- Chunker configuration (`chunk_size`, `chunk_overlap`). -/
structure SizeCfg where
  chunk_size : Nat
  chunk_overlap : Nat
deriving Repr, DecidableEq

/-- The chunk dict built for one non-empty window of `_split_by_size`. -/
def sizeChunk (docId : String) (filename : Option String) (fileType : String)
    (chunkNum start epos : Nat) (cc : List Char) : Chunk :=
  { chunk_id := docId ++ "_chunk_" ++ toString chunkNum
    document_id := docId
    content := String.mk cc
    meta := { file_type := fileType
              filename := filename.getD ("unknown." ++ fileType)
              chunk_type := "size_based"
              chunk_size := cc.length
              chunk_num := some chunkNum
              start_pos := some start
              end_pos := some epos } }

/-- The value of `end` for one iteration of `_split_by_size`:
`end = start + chunk_size`, then the sentence-boundary adjustment. -/
def windowEnd (cfg : SizeCfg) (content : List Char) (start : Nat) : Nat :=
  adjustEnd content start cfg.chunk_size (start + cfg.chunk_size)

/-- `chunk_content = content[start:end].strip()` for one iteration. -/
def windowContent (cfg : SizeCfg) (content : List Char) (start : Nat) : List Char :=
  pyStrip (pySlice content start (windowEnd cfg content start))

/-- `start = end - chunk_overlap; if start < 0: start = end` (Python ints,
so the reset fires exactly when `end < chunk_overlap`). -/
def nextStart (cfg : SizeCfg) (content : List Char) (start : Nat) : Nat :=
  if windowEnd cfg content start < cfg.chunk_overlap then windowEnd cfg content start
  else windowEnd cfg content start - cfg.chunk_overlap

/-- The `while start < len(content)` loop of `_split_by_size`, with explicit
fuel.  One iteration: compute `end`, adjust it toward a sentence boundary,
append the stripped window when non-empty, then advance `start`. -/
def splitGo (cfg : SizeCfg) (docId : String) (filename : Option String)
    (fileType : String) (content : List Char) :
    Nat → Nat → Nat → List Chunk → Option (List Chunk)
  | 0, _, _, _ => none
  | fuel + 1, start, chunkNum, acc =>
    if start < content.length then
      splitGo cfg docId filename fileType content fuel
        (nextStart cfg content start)
        (if (windowContent cfg content start).isEmpty then chunkNum else chunkNum + 1)
        (if (windowContent cfg content start).isEmpty then acc
         else acc ++ [sizeChunk docId filename fileType chunkNum start
            (windowEnd cfg content start) (windowContent cfg content start)])
    else some acc

/-- `DocumentChunker._split_by_size` with the given fuel; `none` means the
fuel ran out before the loop finished. -/
def splitBySize (cfg : SizeCfg) (docId : String) (filename : Option String)
    (fileType : String) (content : String) (fuel : Nat) : Option (List Chunk) :=
  splitGo cfg docId filename fileType content.data fuel 0 0 []

/-- The source loop terminates on this input iff some finite fuel suffices. -/
def SplitBySizeTerminates (cfg : SizeCfg) (docId : String)
    (filename : Option String) (fileType : String) (content : String) : Prop :=
  ∃ fuel, (splitBySize cfg docId filename fileType content fuel).isSome

/-! ## Multimodal embedder (`x_rag/embedder.py`, `get_embedding_function`) -/

/-- `emb / emb.norm(p=2, dim=-1, keepdim=True)`: elementwise division by the
L2 norm scalar.  The norm itself is computed by torch on machine floats, so
the scalar is an abstract parameter `normSc`. -/
def l2normalize (normSc : List ℚ → ℚ) (v : List ℚ) : List ℚ :=
  v.map (fun x => x / normSc v)

/-- The closure `embed_function(texts=None, images=None)` returned by
`MultimodalEmbedder.get_embedding_function`.  `textFeat` / `imgFeat` are the
external CLIP encoders (`get_text_features` / `get_image_features`); a falsy
text (absent or `""`) or an absent image is replaced by
`torch.zeros((1, 512))`; the two halves are always concatenated. -/
def embedFunction {I : Type} (textFeat : String → List ℚ) (imgFeat : I → List ℚ)
    (normSc : List ℚ → ℚ) (texts : List (Option String))
    (images : List (Option I)) : Except String (List ℚ) :=
  let textInput : Option String := match texts with
    | some t :: _ => some t
    | _ => none
  let imageInput : Option I := match images with
    | some i :: _ => some i
    | _ => none
  if !strTruthy textInput && imageInput.isNone then
    .error "At least one of text or image must be provided."
  else
    let zeroEmb := List.replicate 512 (0 : ℚ)
    let textEmb := match textInput with
      | some t => if t == "" then zeroEmb else l2normalize normSc (textFeat t)
      | none => zeroEmb
    let imageEmb := match imageInput with
      | some i => l2normalize normSc (imgFeat i)
      | none => zeroEmb
    .ok (textEmb ++ imageEmb)

/-! ## Index store model (Chroma collections as lists of records) -/

/-- The metadata fields of a stored chunk that the document manager reads. -/
structure RecMeta where
  document_id : String
  filename : String
deriving Repr, DecidableEq

/-- One record of a Chroma collection. -/
structure DbRec where
  id : String
  document : String
  embedding : List ℚ
  meta : RecMeta
deriving Repr, DecidableEq

/-- The two independently persisted collections of `VectorDatabaseManager`. -/
structure DBState where
  pdf : List DbRec
  csv : List DbRec
deriving Repr, DecidableEq

/-- `collection.query(...)` for one query embedding: filter by the `where`
predicate, rank by ascending distance, return at most `k` rows.  `dist` is
the distance of an entry to the query embedding. -/
def chromaQuery {β : Type} (dist : β → ℚ) (k : Nat) (wherePred : β → Bool)
    (entries : List β) : List β :=
  (List.insertionSort (fun a b => dist a ≤ dist b) (entries.filter wherePred)).take k

/-! ## Document manager (`src/dataroom/rag/document_manager.py`) -/

/-- Result dict of a document-manager operation: either a dict with an
`"error"` key or a success payload. -/
inductive DmResult where
  | err (msg : String)
  | uploadOk (document_id : String) (chunks_added : Nat)
  | deleteOk (document_id : String) (deleted_from_pdf deleted_from_csv : Bool)
deriving Repr, DecidableEq

/-- Python `"error" in result`. -/
def DmResult.hasError : DmResult → Bool
  | .err _ => true
  | _ => false

/-- Python `result["error"]` (only read when present). -/
def DmResult.errMsg : DmResult → String
  | .err m => m
  | _ => ""

/-- `DocumentManager._check_document_exists`: look the filename up in the
target collection; on a hit return the `document_id` of the first match. -/
def checkDocumentExists (coll : List DbRec) (filename : String) : Option String :=
  match coll.filter (fun r => r.meta.filename == filename) with
  | [] => none
  | r :: _ => some r.meta.document_id

/-- One page chunk of the external PDF parser's result. -/
structure PageChunk where
  text : String
  page : Nat
deriving Repr, DecidableEq

/-- The parse result consumed by `add_pdf_document`. -/
structure ParsedPdf where
  filename : Option String
  page_chunks : List PageChunk
deriving Repr, DecidableEq

/-- The record inserted for one page by `add_pdf_document`. -/
def pageRec (docId fname : String) (embed : String → List ℚ)
    (pc : PageChunk) : DbRec :=
  { id := docId ++ "_page_" ++ toString pc.page
    document := pc.text
    embedding := embed pc.text
    meta := { document_id := docId, filename := fname } }

/-- `VectorDatabaseManager.add_pdf_document`.  The external parser result and
the generated document id (derived from the clock) are parameters. -/
def addPdfDocument (parsed : Except String ParsedPdf) (genId : String)
    (embed : String → List ℚ) (s : DBState) : DmResult × DBState :=
  match parsed with
  | .error e => (.err ("Failed to parse PDF: " ++ e), s)
  | .ok p =>
    if p.page_chunks.isEmpty then (.err "No page chunks found in parse result", s)
    else
      let fname := p.filename.getD "unknown.pdf"
      let recs := p.page_chunks.map (pageRec genId fname embed)
      (.uploadOk genId p.page_chunks.length, { s with pdf := s.pdf ++ recs })

/-- `DocumentManager.upload_pdf`: reject when the filename already exists in
the PDF collection, otherwise add. -/
def uploadPdf (parsed : Except String ParsedPdf) (genId : String)
    (embed : String → List ℚ) (s : DBState) (filename : String) :
    DmResult × DBState :=
  match checkDocumentExists s.pdf filename with
  | some docId => (.err ("Document already exists: " ++ docId), s)
  | none => addPdfDocument parsed genId embed s

/-- `DocumentManager._delete_from_collection`: collect the ids of records
whose metadata carries the document id, delete those ids, report whether
anything matched. -/
def deleteFromCollection (coll : List DbRec) (docId : String) :
    Bool × List DbRec :=
  let matchedIds :=
    (coll.filter (fun r => r.meta.document_id == docId)).map (fun r => r.id)
  if matchedIds.isEmpty then (false, coll)
  else (true, coll.filter (fun r => !(matchedIds.contains r.id)))

/-- `DocumentManager.delete_document`: delete from the PDF collection, then
from the CSV collection; success iff either had matches. -/
def deleteDocument (s : DBState) (docId : String) : DmResult × DBState :=
  let pdfRes := deleteFromCollection s.pdf docId
  let csvRes := deleteFromCollection s.csv docId
  let s2 : DBState := { pdf := pdfRes.2, csv := csvRes.2 }
  if pdfRes.1 || csvRes.1 then
    (.deleteOk docId pdfRes.1 csvRes.1, s2)
  else
    (.err ("Document not found: " ++ docId), s2)

/-- `DocumentManager.delete_document_by_path`: look the filename up in the
PDF collection first, then in the CSV collection, and delete by the
document id of the first hit. -/
def deleteDocumentByPath (s : DBState) (filename : String) :
    DmResult × DBState :=
  let pdfDocs := s.pdf.filter (fun r => r.meta.filename == filename)
  let csvDocs := s.csv.filter (fun r => r.meta.filename == filename)
  match pdfDocs with
  | r :: _ => deleteDocument s r.meta.document_id
  | [] =>
    match csvDocs with
    | r :: _ => deleteDocument s r.meta.document_id
    | [] => (.err ("Document not found: " ++ filename), s)

/-- `DocumentManager.update_document`: run the delete step; when it reports
an error whose lowercase text does not contain `"not found"`, return it
without uploading; otherwise run the upload step on the resulting state.
The two steps (`delete_document_by_path`, `upload_document`) are passed as
functions so that delete failures of every kind are expressible. -/
def updateDocument (deleteStep : DBState → DmResult × DBState)
    (uploadStep : DBState → DmResult × DBState) (s : DBState) :
    DmResult × DBState :=
  let dres := deleteStep s
  if dres.1.hasError && !(pySubstr "not found".data (pyLower dres.1.errMsg).data) then
    dres
  else uploadStep dres.2

/-! ## Cascaded two-stage chain (`x_rag/chains.py`, `MultimodalRAGChain`) -/

/-- Metadata of a case-level record (stage 1). -/
structure CaseMeta where
  case_id : Option String
  image_path : Option String
deriving Repr, DecidableEq

/-- One record of the case-level collection. -/
structure CaseEntry where
  document : String
  meta : CaseMeta
deriving Repr, DecidableEq

/-- One record of the chunk-level collection; its metadata carries the
`case_id` join key. -/
structure ChunkEntry where
  document : String
  case_id : Option String
deriving Repr, DecidableEq

/-- `MultimodalRAGChain._case_level_retrieval`: embed the (possibly
intent-adjusted) query, then query the case collection unfiltered.  The
nested one-query Chroma result `results[...][0]` is represented flat. -/
def caseLevelRetrieval {I : Type}
    (embedFn : List (Option String) → List (Option I) → Except String (List ℚ))
    (dist : List ℚ → CaseEntry → ℚ) (caseColl : List CaseEntry) (k : Nat)
    (queryText : Option String) (queryImage : Option I) :
    Except String (List CaseEntry) := do
  let qe ← embedFn [queryText] [queryImage]
  pure (chromaQuery (dist qe) k (fun _ => true) caseColl)

/-- `MultimodalRAGChain._chunk_level_retrieval`: empty stage-1 metadata or a
falsy `case_id` on the top match short-circuits to empty results; otherwise
query the chunk collection with `where={"case_id": top_case_id}` (a `None`
query text is replaced by `"image analysis"`, the image is dropped).  The
flattening of the nested one-query result is folded into the flat
representation. -/
def chunkLevelRetrieval {I : Type}
    (embedFn : List (Option String) → List (Option I) → Except String (List ℚ))
    (dist : List ℚ → ChunkEntry → ℚ) (chunkColl : List ChunkEntry) (k : Nat)
    (queryText : Option String) (caseResults : List CaseEntry) :
    Except String (List ChunkEntry) :=
  match caseResults with
  | [] => .ok []
  | top :: _ =>
    match top.meta.case_id with
    | none => .ok []
    | some cid =>
      if cid == "" then .ok []
      else do
        let qt := queryText.getD "image analysis"
        let qe ← embedFn [some qt] [(none : Option I)]
        pure (chromaQuery (dist qe) k (fun e => e.case_id == some cid) chunkColl)

/-- The payload returned by `MultimodalRAGChain.invoke`. -/
structure InvokeResult where
  context : String
  answer : String
  image_paths : List String
  case_results : List CaseEntry
  chunk_results : List ChunkEntry
deriving Repr, DecidableEq

/-- The image-path extraction loop of `invoke`: keep every truthy
`image_path` of the stage-1 metadata. -/
def extractImagePaths (caseResults : List CaseEntry) : List String :=
  caseResults.filterMap (fun e => match e.meta.image_path with
    | some p => if p == "" then none else some p
    | none => none)

/-- `MultimodalRAGChain.invoke`.  `intentFn` is the external intent LLM
(taking the query text and the image-presence flag), `generate` the external
answer LLM (`prompt | llm` applied to context and input).  A query with
falsy text and no image raises `ValueError` (modelled as `throw`); the
intent string is stripped and lowercased, `image_only` drops the text,
`text_only` drops the image, anything else is treated as `mixed_query`;
then stage 1, stage 2, context assembly, and the answer call. -/
def mmInvoke {I : Type} (intentFn : String → Bool → String)
    (embedFn : List (Option String) → List (Option I) → Except String (List ℚ))
    (distCase : List ℚ → CaseEntry → ℚ) (distChunk : List ℚ → ChunkEntry → ℚ)
    (caseColl : List CaseEntry) (chunkColl : List ChunkEntry)
    (caseK chunkK : Nat) (generate : String → String → String)
    (queryText : Option String) (queryImage : Option I) :
    Except String InvokeResult := do
  if !strTruthy queryText && queryImage.isNone then
    throw "Query must contain at least 'input' text or an 'image'."
  let raw := intentFn (queryText.getD "") queryImage.isSome
  let intent := pyLower (String.mk (pyStrip raw.data))
  let qt := if intent == "image_only" then none else queryText
  let qi := if intent == "text_only" then none else queryImage
  let caseResults ← caseLevelRetrieval embedFn distCase caseColl caseK qt qi
  let chunkResults ← chunkLevelRetrieval embedFn distChunk chunkColl chunkK qt caseResults
  let context := String.intercalate "\n\n---\n\n" (chunkResults.map (fun e => e.document))
  let answer := generate context (qt.getD "")
  pure { context := context
         answer := answer
         image_paths := extractImagePaths caseResults
         case_results := caseResults
         chunk_results := chunkResults }

/-! ## Single-stage chain (`src/dataroom/rag/rag_chain.py`, `RealEstateRAGChain`) -/

/-- Metadata of a record of the PDF or CSV collection as read by the chain. -/
structure RagMeta where
  filename : Option String
  page_number : Option Nat
  row : Option Nat
deriving Repr, DecidableEq

/-- One retrieved record. -/
structure RagEntry where
  document : String
  meta : RagMeta
deriving Repr, DecidableEq

/-- The citation prefix for a PDF hit:
`f"Document: {filename}, Page {page_number}\n{doc}"`. -/
def formatPdfDoc (e : RagEntry) : String :=
  "Document: " ++ e.meta.filename.getD "unknown.pdf" ++ ", Page " ++
    (match e.meta.page_number with | some n => toString n | none => "unknown") ++
    "\n" ++ e.document

/-- The citation prefix for a CSV hit: `f"Data: {filename}, Row {row}\n{doc}"`. -/
def formatCsvDoc (e : RagEntry) : String :=
  "Data: " ++ e.meta.filename.getD "unknown.csv" ++ ", Row " ++
    (match e.meta.row with | some n => toString n | none => "unknown") ++
    "\n" ++ e.document

/-- The payload returned by `RealEstateRAGChain.invoke`. -/
structure RealResult where
  answer : String
  context : String
  pdf_results : List RagEntry
  csv_results : List RagEntry
deriving Repr, DecidableEq

/-- `RealEstateRAGChain.invoke`: a falsy query raises `ValueError`
(modelled as `throw`); otherwise embed once, query the PDF and the CSV
collection independently, format and merge the hits; when nothing was
retrieved return the fixed no-content answer without calling the generator,
otherwise call the external generator on the joined context. -/
def reInvoke (embed : String → List ℚ)
    (distPdf distCsv : List ℚ → RagEntry → ℚ)
    (pdfColl csvColl : List RagEntry) (pdfK csvK : Nat)
    (generate : String → String → String)
    (inputs : Option String) : Except String RealResult := do
  if !strTruthy inputs then
    throw "Query must be provided in inputs"
  let q := inputs.getD ""
  let qe := embed q
  let pdfResults := chromaQuery (distPdf qe) pdfK (fun _ => true) pdfColl
  let csvResults := chromaQuery (distCsv qe) csvK (fun _ => true) csvColl
  let allDocs := pdfResults.map formatPdfDoc ++ csvResults.map formatCsvDoc
  if allDocs.isEmpty then
    pure { answer := "Sorry, no relevant document content was found to answer your question."
           context := ""
           pdf_results := pdfResults
           csv_results := csvResults }
  else
    let context := String.intercalate "\n\n---\n\n" allDocs
    pure { answer := generate context q
           context := context
           pdf_results := pdfResults
           csv_results := csvResults }

/-! ## Theorems -/

/-- Indices produced by `enumFrom n` with `1 ≤ n` all survive the
skip-index-0 filter of `_split_csv_by_rows`. -/
theorem filter_enumFrom_ne_zero {α : Type} (l : List α) : ∀ n, 1 ≤ n →
    (List.enumFrom n l).filter (fun p => p.1 != 0) = List.enumFrom n l := by
  induction l with
  | nil => intro n _; rfl
  | cons a t ih =>
    intro n h
    show ((n, a) :: List.enumFrom (n + 1) t).filter (fun p => p.1 != 0)
        = (n, a) :: List.enumFrom (n + 1) t
    rw [List.filter_cons]
    have hn : ((n, a).1 != 0) = true := by simp; omega
    rw [hn, ih (n + 1) (by omega)]
    simp

/-- On a table input, `_split_csv_by_rows` maps the row-chunk constructor
over the table lines enumerated from 1 with the head (the header) dropped. -/
theorem splitCsvByRows_table (fallback : String → List Chunk) (docId : String)
    (filename : Option String) (content : String) (t0 : List Char)
    (ts : List (List Char)) (h : tableLines content = t0 :: ts) :
    splitCsvByRows fallback docId filename content
      = (List.enumFrom 1 ts).map (rowChunk docId filename ts.length) := by
  show (if (tableLines content).isEmpty then fallback content
      else ((tableLines content).enum.filter (fun p => p.1 != 0)).map
        (rowChunk docId filename ((tableLines content).length - 1)))
    = (List.enumFrom 1 ts).map (rowChunk docId filename ts.length)
  rw [h]
  rw [if_neg (by simp)]
  rw [List.enum_cons, List.filter_cons]
  have h0 : (((0 : Nat), t0).1 != 0) = false := by simp
  rw [h0, filter_enumFrom_ne_zero ts 1 (by omega)]
  simp

/-- Claim C1: false on the code.  For the markdown table with header line
`| a | b |`, separator line `|---|---|`, and a single data row `| 1 | 2 |`
(so N = 1), the row chunker does not yield 1 chunk with row index 1 and
`total_rows == 1`: the separator line passes the table-line test and is
chunked as a data row, giving 2 chunks with row indices `[1, 2]` and
`total_rows == 2`. -/
theorem c1_row_chunker_counterexample :
    (chunkCsvMarkdown true (fun _ => []) "doc1" (some "t.csv")
        "| a | b |\n|---|---|\n| 1 | 2 |").length ≠ 1 ∧
    (chunkCsvMarkdown true (fun _ => []) "doc1" (some "t.csv")
        "| a | b |\n|---|---|\n| 1 | 2 |").map (fun c => c.meta.row)
      = [some 1, some 2] ∧
    (chunkCsvMarkdown true (fun _ => []) "doc1" (some "t.csv")
        "| a | b |\n|---|---|\n| 1 | 2 |").map (fun c => c.meta.total_rows)
      = [some 2, some 2] := by
  refine ⟨by decide, by decide, by decide⟩

/-- Claim C1 (amended): for a markdown table whose table lines are a header
line, a separator line, and N data rows, `chunk_csv_markdown` (via
`_split_csv_by_rows`) yields exactly N + 1 chunks: the separator line is
treated as data row 1, the j-th data row (0-based j) carries row index
j + 2, and every chunk's `total_rows` equals N + 1. -/
theorem c1_row_chunker_amended (fallback : String → List Chunk) (docId : String)
    (filename : Option String) (content : String) (header sep : List Char)
    (rows : List (List Char))
    (htl : tableLines content = header :: sep :: rows) :
    (chunkCsvMarkdown true fallback docId filename content).length
        = rows.length + 1 ∧
    (chunkCsvMarkdown true fallback docId filename content).head?
        = some (rowChunk docId filename (rows.length + 1) (1, sep)) ∧
    (∀ j (hj : j < rows.length),
      (chunkCsvMarkdown true fallback docId filename content)[j + 1]?
        = some (rowChunk docId filename (rows.length + 1) (j + 2, rows[j]))) ∧
    (∀ c ∈ chunkCsvMarkdown true fallback docId filename content,
      c.meta.total_rows = some (rows.length + 1) ∧ c.document_id = docId) := by
  have hchunks : chunkCsvMarkdown true fallback docId filename content
      = (List.enumFrom 1 (sep :: rows)).map
          (rowChunk docId filename (rows.length + 1)) := by
    show splitCsvByRows fallback docId filename content = _
    rw [splitCsvByRows_table fallback docId filename content header (sep :: rows) htl]
    simp
  refine ⟨?_, ?_, ?_, ?_⟩
  · rw [hchunks]; simp [List.enumFrom_length]
  · rw [hchunks]
    rfl
  · intro j hj
    rw [hchunks, List.getElem?_map]
    rw [List.getElem?_eq_getElem (by simp [List.enumFrom_length]; omega)]
    simp only [List.getElem_enumFrom, List.getElem_cons_succ]
    have h1 : 1 + (j + 1) = j + 2 := by omega
    rw [h1]
    simp
  · intro c hc
    rw [hchunks] at hc
    obtain ⟨p, _, rfl⟩ := List.mem_map.mp hc
    exact ⟨rfl, rfl⟩

/-- Witness for `c1_row_chunker_amended` on the table
`| a |` / `|---|` / `| 1 |` (N = 1): 2 chunks, the first being the
separator-row chunk. -/
theorem c1_row_chunker_amended_witness :
    (chunkCsvMarkdown true (fun _ => []) "doc1" (some "t.csv")
        "| a |\n|---|\n| 1 |").length = 1 + 1 ∧
    (chunkCsvMarkdown true (fun _ => []) "doc1" (some "t.csv")
        "| a |\n|---|\n| 1 |").head?
      = some (rowChunk "doc1" (some "t.csv") (1 + 1) (1, "|---|".data)) := by
  have h := c1_row_chunker_amended (fun _ => []) "doc1" (some "t.csv")
      "| a |\n|---|\n| 1 |" "| a |".data "|---|".data ["| 1 |".data] (by decide)
  exact ⟨h.1, h.2.1⟩

/-- With `chunk_size = 1`, `chunk_overlap = 1` and content `"ab"`, one loop
iteration of `_split_by_size` maps `start = 0` back to `start = 0` while
appending a chunk, so no fuel ever completes the loop. -/
theorem splitGo_ab_stuck (fuel : Nat) : ∀ n acc,
    splitGo ⟨1, 1⟩ "doc1" (some "t.csv") "csv" "ab".data fuel 0 n acc = none := by
  induction fuel with
  | zero => intro n acc; rfl
  | succ m ih =>
    intro n acc
    have hstep : splitGo ⟨1, 1⟩ "doc1" (some "t.csv") "csv" "ab".data (m + 1) 0 n acc
        = splitGo ⟨1, 1⟩ "doc1" (some "t.csv") "csv" "ab".data m 0 (n + 1)
            (acc ++ [sizeChunk "doc1" (some "t.csv") "csv" n 0 1 ['a']]) := rfl
    rw [hstep]
    exact ih (n + 1) _

/-- Claim C9: false on the code.  For `chunk_size = 1`, `chunk_overlap = 1`
(allowed by the claim's `chunk_size >= 1`, `chunk_overlap >= 0`) and input
`"ab"`, the loop sets `end = start + 1` and then
`start = end - chunk_overlap = start`, so `_split_by_size` never
terminates. -/
theorem c9_fallback_splitter_counterexample :
    ¬ SplitBySizeTerminates ⟨1, 1⟩ "doc1" (some "t.csv") "csv" "ab" := by
  rintro ⟨fuel, h⟩
  rw [show splitBySize ⟨1, 1⟩ "doc1" (some "t.csv") "csv" "ab" fuel
      = splitGo ⟨1, 1⟩ "doc1" (some "t.csv") "csv" "ab".data fuel 0 0 [] from rfl,
    splitGo_ab_stuck fuel 0 []] at h
  simp at h

/-- A hit of the boundary scan lies strictly above the scan's lower bound. -/
theorem searchBoundary_gt (content : List Char) (bound : Nat) :
    ∀ i j, searchBoundary content bound i = some j → bound < j := by
  intro i
  induction i with
  | zero => intro j h; exact absurd h (by rw [searchBoundary]; simp)
  | succ m ih =>
    intro j h
    rw [searchBoundary] at h
    by_cases h1 : m + 1 ≤ bound
    · rw [if_pos h1] at h; cases h
    · rw [if_neg h1] at h
      by_cases h2 : boundaryChar (content.getD (m + 1) ' ') = true
      · rw [if_pos h2] at h
        cases h
        omega
      · rw [if_neg h2] at h
        exact ih j h

/-- Each window of `_split_by_size` reaches at least
`start + min chunk_size (chunk_size / 2 + 2)`: either the boundary
adjustment did not fire (`end = start + chunk_size`) or it moved `end` to
`i + 1` with `i > start + chunk_size / 2`. -/
theorem windowEnd_lower (cfg : SizeCfg) (content : List Char) (start : Nat) :
    start + min cfg.chunk_size (cfg.chunk_size / 2 + 2)
      ≤ windowEnd cfg content start := by
  unfold windowEnd adjustEnd
  by_cases hl : start + cfg.chunk_size < content.length
  · rw [if_pos hl]
    cases hsb : searchBoundary content
        (max (start + cfg.chunk_size / 2) (start + cfg.chunk_size - 100))
        (start + cfg.chunk_size) with
    | none =>
      show start + min cfg.chunk_size (cfg.chunk_size / 2 + 2)
          ≤ start + cfg.chunk_size
      omega
    | some i =>
      have hgt := searchBoundary_gt content _ _ i hsb
      have hmax : start + cfg.chunk_size / 2
          ≤ max (start + cfg.chunk_size / 2) (start + cfg.chunk_size - 100) :=
        le_max_left _ _
      show start + min cfg.chunk_size (cfg.chunk_size / 2 + 2) ≤ i + 1
      omega
  · rw [if_neg hl]
    omega

/-- When the overlap is below the guaranteed window width, every loop
iteration advances `start`, so fuel `content.length` suffices. -/
theorem splitGo_isSome (cfg : SizeCfg) (docId : String) (filename : Option String)
    (fileType : String) (content : List Char)
    (hov : cfg.chunk_overlap < min cfg.chunk_size (cfg.chunk_size / 2 + 2)) :
    ∀ fuel start chunkNum acc, content.length ≤ start + fuel →
      (splitGo cfg docId filename fileType content (fuel + 1) start chunkNum acc).isSome := by
  intro fuel
  induction fuel with
  | zero =>
    intro start n acc h
    rw [splitGo, if_neg (by omega)]
    simp
  | succ m ih =>
    intro start n acc h
    rw [splitGo]
    by_cases hlt : start < content.length
    · rw [if_pos hlt]
      have hns : start + 1 ≤ nextStart cfg content start := by
        have he := windowEnd_lower cfg content start
        unfold nextStart
        rw [if_neg (by omega)]
        omega
      exact ih (nextStart cfg content start) _ _ (by omega)
    · rw [if_neg hlt]
      simp

/-- Claim C9 (amended): `_split_by_size` terminates on every input string
for every configuration with
`chunk_overlap < min(chunk_size, chunk_size // 2 + 2)` — in particular for
the default `chunk_size = 1000`, `chunk_overlap = 200`; when the overlap
reaches the window width (e.g. `chunk_size = chunk_overlap = 1`) the loop
can run forever, so the claim's full range `chunk_size >= 1,
chunk_overlap >= 0` is not supported by the code. -/
theorem c9_fallback_splitter_amended (cfg : SizeCfg) (docId : String)
    (filename : Option String) (fileType : String) (content : String)
    (hov : cfg.chunk_overlap < min cfg.chunk_size (cfg.chunk_size / 2 + 2)) :
    SplitBySizeTerminates cfg docId filename fileType content := by
  refine ⟨content.data.length + 1, ?_⟩
  exact splitGo_isSome cfg docId filename fileType content.data hov
    content.data.length 0 0 [] (by omega)

/-- Witness for `c9_fallback_splitter_amended` at the default configuration
`chunk_size = 1000`, `chunk_overlap = 200`. -/
theorem c9_fallback_splitter_witness :
    SplitBySizeTerminates ⟨1000, 200⟩ "doc1" none "pdf" "hello" :=
  c9_fallback_splitter_amended ⟨1000, 200⟩ "doc1" none "pdf" "hello" (by norm_num)

/-- Normalization is elementwise, so it preserves the vector width. -/
theorem l2normalize_length (normSc : List ℚ → ℚ) (v : List ℚ) :
    (l2normalize normSc v).length = v.length := by
  simp [l2normalize]

/-- Claim C8: confirmed.  Whenever at least one modality is present (truthy
text or an image), `embed_function` returns a 1024-wide vector made of a
512-wide text half followed by a 512-wide image half; with no image the
image half (`drop 512`) is the zero vector, and with falsy text the text
half (`take 512`) is the zero vector.  The hypotheses state the external
CLIP property that both encoders emit 512-wide vectors. -/
theorem c8_zero_fallback {I : Type} (textFeat : String → List ℚ)
    (imgFeat : I → List ℚ) (normSc : List ℚ → ℚ)
    (hT : ∀ t, (textFeat t).length = 512) (hI : ∀ i, (imgFeat i).length = 512)
    (t? : Option String) (i? : Option I)
    (hpresent : strTruthy t? = true ∨ i?.isSome = true) :
    ∃ v, embedFunction textFeat imgFeat normSc [t?] [i?] = .ok v
      ∧ v.length = 1024
      ∧ (i? = none → v.drop 512 = List.replicate 512 (0 : ℚ))
      ∧ (strTruthy t? = false → v.take 512 = List.replicate 512 (0 : ℚ)) := by
  cases t? with
  | none =>
    cases i? with
    | none => simp [strTruthy] at hpresent
    | some i =>
      refine ⟨List.replicate 512 0 ++ l2normalize normSc (imgFeat i), rfl, ?_, ?_, ?_⟩
      · rw [List.length_append, List.length_replicate, l2normalize_length, hI i]
      · intro h; cases h
      · intro _
        exact List.take_left' (List.length_replicate 512 0)
  | some t =>
    by_cases ht : t = ""
    · subst ht
      cases i? with
      | none => simp [strTruthy] at hpresent
      | some i =>
        refine ⟨List.replicate 512 0 ++ l2normalize normSc (imgFeat i), rfl, ?_, ?_, ?_⟩
        · rw [List.length_append, List.length_replicate, l2normalize_length, hI i]
        · intro h; cases h
        · intro _
          exact List.take_left' (List.length_replicate 512 0)
    · have htb : (t == "") = false := by simpa using ht
      have htlen : (l2normalize normSc (textFeat t)).length = 512 := by
        rw [l2normalize_length, hT t]
      cases i? with
      | none =>
        refine ⟨l2normalize normSc (textFeat t) ++ List.replicate 512 0, ?_, ?_, ?_, ?_⟩
        · simp only [embedFunction, strTruthy, Option.isNone_none, Bool.and_true, htb,
            Bool.not_false, Bool.not_true, Bool.false_eq_true, if_false]
        · rw [List.length_append, List.length_replicate, htlen]
        · intro _
          exact List.drop_left' htlen
        · intro hfalse
          simp [strTruthy, htb] at hfalse
      | some i =>
        refine ⟨l2normalize normSc (textFeat t) ++ l2normalize normSc (imgFeat i),
          ?_, ?_, ?_, ?_⟩
        · simp only [embedFunction, strTruthy, Option.isNone_some, Bool.and_false, htb,
            Bool.false_eq_true, if_false]
        · rw [List.length_append, htlen, l2normalize_length, hI i]
        · intro h; cases h
        · intro hfalse
          simp [strTruthy, htb] at hfalse

/-- Witness for `c8_zero_fallback`: a text-only input under constant
512-wide encoders yields an `ok` 1024-wide vector. -/
theorem c8_zero_fallback_witness :
    (embedFunction (fun _ => List.replicate 512 (1 : ℚ))
        (fun _ : Unit => List.replicate 512 (1 : ℚ)) (fun _ => 1)
        [some "hello"] [(none : Option Unit)]).map List.length = .ok 1024 := by
  obtain ⟨v, hv, hlen, -, -⟩ := c8_zero_fallback (fun _ => List.replicate 512 1)
    (fun _ : Unit => List.replicate 512 1) (fun _ => 1)
    (fun _ => List.length_replicate 512 1) (fun _ => List.length_replicate 512 1)
    (some "hello") none (Or.inl (by decide))
  rw [hv, Except.map, hlen]

/-- `_check_document_exists` misses exactly when no record of the collection
carries the filename. -/
theorem checkDocumentExists_none_iff (coll : List DbRec) (filename : String) :
    checkDocumentExists coll filename = none ↔
      coll.filter (fun x => x.meta.filename == filename) = [] := by
  unfold checkDocumentExists
  cases h : coll.filter (fun x => x.meta.filename == filename) with
  | nil => simp
  | cons r t => simp

/-- After `_delete_from_collection`, no record with the target document id
remains. -/
theorem deleteFromCollection_residual (coll : List DbRec) (docId : String) :
    (deleteFromCollection coll docId).2.filter
      (fun r => r.meta.document_id == docId) = [] := by
  simp only [deleteFromCollection]
  split
  next h =>
    simp only [List.isEmpty_iff, List.map_eq_nil_iff] at h
    simpa using h
  next h =>
    rw [List.filter_eq_nil_iff]
    intro r hr hp
    obtain ⟨hrc, hq⟩ := List.mem_filter.mp hr
    have hmem : r.id ∈ (coll.filter (fun x => x.meta.document_id == docId)).map
        (fun x => x.id) :=
      List.mem_map.mpr ⟨r, List.mem_filter.mpr ⟨hrc, hp⟩, rfl⟩
    have hcont : ((coll.filter (fun x => x.meta.document_id == docId)).map
        (fun x => x.id)).contains r.id = true := by
      simpa using hmem
    rw [hcont] at hq
    simp at hq

/-- The `deleted` flag of `_delete_from_collection` is exactly "some record
carries the document id". -/
theorem deleteFromCollection_flag (coll : List DbRec) (docId : String) :
    (deleteFromCollection coll docId).1
      = coll.any (fun r => r.meta.document_id == docId) := by
  simp only [deleteFromCollection]
  split
  next h =>
    simp only [List.isEmpty_iff, List.map_eq_nil_iff, List.filter_eq_nil_iff] at h
    have : coll.any (fun r => r.meta.document_id == docId) = false := by
      rw [← Bool.not_eq_true, List.any_eq_true]
      rintro ⟨x, hx, hpx⟩
      exact h x hx hpx
    rw [this]
  next h =>
    simp only [List.isEmpty_iff, List.map_eq_nil_iff] at h
    have hne : coll.filter (fun x => x.meta.document_id == docId) ≠ [] := h
    rcases hf : coll.filter (fun x => x.meta.document_id == docId) with _ | ⟨x, t⟩
    · exact absurd hf hne
    · have hx := List.mem_filter.mp (hf ▸ List.mem_cons_self x t)
      have : coll.any (fun r => r.meta.document_id == docId) = true :=
        List.any_eq_true.mpr ⟨x, hx.1, hx.2⟩
      rw [this]

/-- When no record carries the document id, `_delete_from_collection` is the
identity with a `false` flag. -/
theorem deleteFromCollection_of_not_any (coll : List DbRec) (docId : String)
    (h : coll.any (fun r => r.meta.document_id == docId) = false) :
    deleteFromCollection coll docId = (false, coll) := by
  have hf : coll.filter (fun x => x.meta.document_id == docId) = [] := by
    rw [List.filter_eq_nil_iff]
    intro a ha hpa
    rw [← Bool.not_eq_true, List.any_eq_true] at h
    exact h ⟨a, ha, hpa⟩
  simp only [deleteFromCollection, hf]
  rfl

/-- `delete_document` always returns the state produced by running
`_delete_from_collection` on both collections. -/
theorem deleteDocument_state (s : DBState) (docId : String) :
    (deleteDocument s docId).2
      = ⟨(deleteFromCollection s.pdf docId).2, (deleteFromCollection s.csv docId).2⟩ := by
  simp only [deleteDocument]
  split <;> rfl

/-- The result dict of `delete_document`: per-collection match flags on
success, an error dict when neither collection matched. -/
theorem deleteDocument_result (s : DBState) (docId : String) :
    (deleteDocument s docId).1
      = if s.pdf.any (fun r => r.meta.document_id == docId)
           || s.csv.any (fun r => r.meta.document_id == docId) then
          DmResult.deleteOk docId (s.pdf.any (fun r => r.meta.document_id == docId))
            (s.csv.any (fun r => r.meta.document_id == docId))
        else DmResult.err ("Document not found: " ++ docId) := by
  simp only [deleteDocument]
  rw [deleteFromCollection_flag s.pdf docId, deleteFromCollection_flag s.csv docId]
  split
  next h => simp
  next h => simp

/-- Records whose document id differs survive `_delete_from_collection`,
provided the collection's ids are unique (the Chroma invariant). -/
theorem mem_deleteFromCollection_of_ne (coll : List DbRec) (docId : String)
    (hnd : (coll.map (fun r => r.id)).Nodup) (r : DbRec) (hr : r ∈ coll)
    (hne : r.meta.document_id ≠ docId) :
    r ∈ (deleteFromCollection coll docId).2 := by
  simp only [deleteFromCollection]
  split
  next h => exact hr
  next h =>
    apply List.mem_filter.mpr
    refine ⟨hr, ?_⟩
    rw [Bool.not_eq_eq_eq_not, Bool.not_true]
    rw [← Bool.not_eq_true]
    intro hc
    have hmem : r.id ∈ (coll.filter (fun x => x.meta.document_id == docId)).map
        (fun x => x.id) := by
      simpa using hc
    obtain ⟨x, hx, hxid⟩ := List.mem_map.mp hmem
    obtain ⟨hxcoll, hxdoc⟩ := List.mem_filter.mp hx
    have hxr : x = r := List.inj_on_of_nodup_map hnd hxcoll hr hxid
    subst hxr
    exact hne (by simpa using hxdoc)

/-- Claim C7: confirmed.  `delete_document` removes every chunk whose
metadata references the document id from both the PDF and the CSV
collection (no residual record in either), reports which collections
actually had matches via `deleted_from_pdf` / `deleted_from_csv`, and when
neither collection holds such a chunk it returns an error dict and leaves
the state unchanged. -/
theorem c7_delete_consistency (s : DBState) (docId : String) :
    ((deleteDocument s docId).2.pdf.filter
        (fun r => r.meta.document_id == docId) = []
      ∧ (deleteDocument s docId).2.csv.filter
        (fun r => r.meta.document_id == docId) = [])
    ∧ (deleteDocument s docId).1
        = (if s.pdf.any (fun r => r.meta.document_id == docId)
              || s.csv.any (fun r => r.meta.document_id == docId) then
            DmResult.deleteOk docId
              (s.pdf.any (fun r => r.meta.document_id == docId))
              (s.csv.any (fun r => r.meta.document_id == docId))
          else DmResult.err ("Document not found: " ++ docId))
    ∧ (s.pdf.any (fun r => r.meta.document_id == docId) = false →
        s.csv.any (fun r => r.meta.document_id == docId) = false →
        (deleteDocument s docId).2 = s) := by
  refine ⟨⟨?_, ?_⟩, deleteDocument_result s docId, ?_⟩
  · rw [deleteDocument_state]
    exact deleteFromCollection_residual s.pdf docId
  · rw [deleteDocument_state]
    exact deleteFromCollection_residual s.csv docId
  · intro h1 h2
    rw [deleteDocument_state, deleteFromCollection_of_not_any s.pdf docId h1,
      deleteFromCollection_of_not_any s.csv docId h2]

/-- Witness for `c7_delete_consistency`: deleting from an empty index is a
reported failure that leaves the state unchanged. -/
theorem c7_delete_consistency_witness :
    (deleteDocument ⟨[], []⟩ "doc1").2 = (⟨[], []⟩ : DBState)
    ∧ (deleteDocument ⟨[], []⟩ "doc1").1
        = DmResult.err ("Document not found: " ++ "doc1") := by
  have h := c7_delete_consistency ⟨[], []⟩ "doc1"
  refine ⟨h.2.2 rfl rfl, ?_⟩
  rw [h.2.1]
  rfl

/-- Claim C5: confirmed.  Starting from a state whose PDF collection does
not yet hold the filename, a successful `upload_pdf` inserts the parsed
pages under the generated document id; a second `upload_pdf` of the same
filename (with any parse result, id, or embedder) then returns the
document-already-exists error naming the first upload's document id and
leaves the state unchanged. -/
theorem c5_duplicate_rejection (s : DBState) (filename : String)
    (p : ParsedPdf) (genId : String) (embed : String → List ℚ)
    (hchk : checkDocumentExists s.pdf filename = none)
    (hpc : p.page_chunks ≠ [])
    (hfn : p.filename.getD "unknown.pdf" = filename) :
    (uploadPdf (.ok p) genId embed s filename).1
        = DmResult.uploadOk genId p.page_chunks.length
    ∧ ∀ (parsed2 : Except String ParsedPdf) (genId2 : String)
        (embed2 : String → List ℚ),
        uploadPdf parsed2 genId2 embed2
            (uploadPdf (.ok p) genId embed s filename).2 filename
          = (DmResult.err ("Document already exists: " ++ genId),
             (uploadPdf (.ok p) genId embed s filename).2) := by
  have hfilter0 := (checkDocumentExists_none_iff s.pdf filename).mp hchk
  have hpcne : p.page_chunks.isEmpty = false := by
    rw [List.isEmpty_eq_false_iff_exists_mem]
    cases hp : p.page_chunks with
    | nil => exact absurd hp hpc
    | cons a l => exact ⟨a, List.mem_cons_self a l⟩
  have h1 : uploadPdf (.ok p) genId embed s filename
      = (DmResult.uploadOk genId p.page_chunks.length,
         { s with pdf := s.pdf ++ p.page_chunks.map (pageRec genId (p.filename.getD "unknown.pdf") embed) }) := by
    simp only [uploadPdf, hchk, addPdfDocument, hpcne, Bool.false_eq_true, if_false]
  have hrecsfil : (p.page_chunks.map
        (pageRec genId (p.filename.getD "unknown.pdf") embed)).filter
        (fun x => x.meta.filename == filename)
      = p.page_chunks.map (pageRec genId (p.filename.getD "unknown.pdf") embed) := by
    apply List.filter_eq_self.mpr
    intro a ha
    obtain ⟨pc1, -, rfl⟩ := List.mem_map.mp ha
    simp [pageRec, hfn]
  have hchk2 : checkDocumentExists
      (s.pdf ++ p.page_chunks.map (pageRec genId (p.filename.getD "unknown.pdf") embed))
      filename = some genId := by
    unfold checkDocumentExists
    rw [List.filter_append, hfilter0, List.nil_append, hrecsfil]
    cases hp : p.page_chunks with
    | nil => exact absurd hp hpc
    | cons a l => rfl
  refine ⟨by rw [h1], ?_⟩
  intro parsed2 genId2 embed2
  rw [h1]
  simp only [uploadPdf, hchk2]

/-- Witness for `c5_duplicate_rejection`: a concrete double upload of
`a.pdf` into an empty index. -/
theorem c5_duplicate_rejection_witness :
    uploadPdf (.ok ⟨some "a.pdf", [⟨"hello", 1⟩]⟩) "pdf_2" (fun _ => [])
        (uploadPdf (.ok ⟨some "a.pdf", [⟨"hello", 1⟩]⟩) "pdf_1" (fun _ => [])
          ⟨[], []⟩ "a.pdf").2 "a.pdf"
      = (DmResult.err ("Document already exists: " ++ "pdf_1"),
         (uploadPdf (.ok ⟨some "a.pdf", [⟨"hello", 1⟩]⟩) "pdf_1" (fun _ => [])
           ⟨[], []⟩ "a.pdf").2) := by
  have h := c5_duplicate_rejection ⟨[], []⟩ "a.pdf" ⟨some "a.pdf", [⟨"hello", 1⟩]⟩
    "pdf_1" (fun _ => []) rfl (by simp) rfl
  exact h.2 (.ok ⟨some "a.pdf", [⟨"hello", 1⟩]⟩) "pdf_2" (fun _ => [])

/-- The empty needle is a substring of everything. -/
theorem pySubstr_nil (l : List Char) : pySubstr [] l = true := by
  cases l <;> rfl

/-- A substring hit is preserved when the haystack is extended on the
right. -/
theorem pySubstr_append_left (n l l2 : List Char) (h : pySubstr n l = true) :
    pySubstr n (l ++ l2) = true := by
  induction l with
  | nil =>
    have hn : n = [] := by simpa [pySubstr, List.isEmpty_iff] using h
    subst hn
    exact pySubstr_nil _
  | cons c rest ih =>
    rw [List.cons_append]
    show (n.isPrefixOf (c :: (rest ++ l2)) || pySubstr n (rest ++ l2)) = true
    rw [pySubstr] at h
    by_cases hpre : n.isPrefixOf (c :: rest) = true
    · have hp : n.isPrefixOf (c :: (rest ++ l2)) = true := by
        rw [List.isPrefixOf_iff_prefix] at hpre ⊢
        exact hpre.trans (List.prefix_append (c :: rest) l2)
      rw [hp, Bool.true_or]
    · have hrest : pySubstr n rest = true := by
        simpa [hpre] using h
      rw [ih hrest, Bool.or_true]

/-- The lowercased `Document not found: <filename>` message always contains
`not found`. -/
theorem pySubstr_not_found (filename : String) :
    pySubstr "not found".data
      (pyLower ("Document not found: " ++ filename)).data = true := by
  have hd : (pyLower ("Document not found: " ++ filename)).data
      = "document not found: ".data ++ filename.data.map Char.toLower := by
    show ("Document not found: " ++ filename).data.map Char.toLower = _
    rw [String.data_append, List.map_append]
    congr 1
  rw [hd]
  exact pySubstr_append_left _ _ _ (by decide)

/-- Claim C6: confirmed.  `update_document` runs its delete step first; a
delete error whose text does not contain `not found` (case-insensitively)
is returned as-is and the upload step never runs (the result is independent
of `uploadStep`); a delete error that does contain `not found` — in
particular the `Document not found: ...` error that
`delete_document_by_path` returns for an absent file — degrades the update
to a plain upload; a successful delete also proceeds to the upload. -/
theorem c6_update_delete_then_upload
    (deleteStep uploadStep : DBState → DmResult × DBState) (s : DBState) :
    ((deleteStep s).1.hasError = true →
      pySubstr "not found".data (pyLower (deleteStep s).1.errMsg).data = false →
      updateDocument deleteStep uploadStep s = deleteStep s)
    ∧ ((deleteStep s).1.hasError = true →
      pySubstr "not found".data (pyLower (deleteStep s).1.errMsg).data = true →
      updateDocument deleteStep uploadStep s = uploadStep (deleteStep s).2)
    ∧ ((deleteStep s).1.hasError = false →
      updateDocument deleteStep uploadStep s = uploadStep (deleteStep s).2)
    ∧ (∀ filename : String,
        deleteDocumentByPath s filename
          = (DmResult.err ("Document not found: " ++ filename), s) →
        updateDocument (fun st => deleteDocumentByPath st filename) uploadStep s
          = uploadStep s) := by
  refine ⟨?_, ?_, ?_, ?_⟩
  · intro h1 h2
    simp [updateDocument, h1, h2]
  · intro h1 h2
    simp [updateDocument, h1, h2]
  · intro h1
    simp [updateDocument, h1]
  · intro f h
    simp [updateDocument, h, pySubstr_not_found f, DmResult.hasError, DmResult.errMsg]

/-- Witness for `c6_update_delete_then_upload`: a delete step failing with
an unrelated error aborts the update without uploading. -/
theorem c6_update_delete_then_upload_witness :
    updateDocument (fun st => (DmResult.err "boom", st))
        (fun st => (DmResult.uploadOk "x" 1, st)) ⟨[], []⟩
      = (DmResult.err "boom", (⟨[], []⟩ : DBState)) := by
  have h := c6_update_delete_then_upload (fun st => (DmResult.err "boom", st))
    (fun st => (DmResult.uploadOk "x" 1, st)) ⟨[], []⟩
  exact h.1 rfl (by decide)

/-- Claim C10: confirmed.  When a filename is present in both collections
under two different document ids, `delete_document_by_path` resolves the id
from the PDF collection (PDF lookup takes precedence) and runs
`delete_document` on that id: the call reports success with
`deleted_from_pdf = true`, records whose document id differs survive in
both collections (given the Chroma unique-id invariant), and in particular
every CSV chunk of the same filename under the other document id remains
in the CSV collection. -/
theorem c10_delete_by_path_pdf_precedence (s : DBState) (f : String)
    (rp : DbRec) (tp : List DbRec)
    (hpdf : s.pdf.filter (fun r => r.meta.filename == f) = rp :: tp)
    (hndPdf : (s.pdf.map (fun r => r.id)).Nodup)
    (hndCsv : (s.csv.map (fun r => r.id)).Nodup) :
    deleteDocumentByPath s f = deleteDocument s rp.meta.document_id
    ∧ (deleteDocumentByPath s f).1
        = DmResult.deleteOk rp.meta.document_id true
            (s.csv.any (fun r => r.meta.document_id == rp.meta.document_id))
    ∧ (∀ r ∈ s.pdf, r.meta.document_id ≠ rp.meta.document_id →
        r ∈ (deleteDocumentByPath s f).2.pdf)
    ∧ (∀ r ∈ s.csv, r.meta.document_id ≠ rp.meta.document_id →
        r ∈ (deleteDocumentByPath s f).2.csv) := by
  have hrp : rp ∈ s.pdf ∧ (rp.meta.filename == f) = true :=
    List.mem_filter.mp (hpdf ▸ List.mem_cons_self rp tp)
  have heq : deleteDocumentByPath s f = deleteDocument s rp.meta.document_id := by
    simp only [deleteDocumentByPath, hpdf]
  have hany : s.pdf.any (fun r => r.meta.document_id == rp.meta.document_id) = true :=
    List.any_eq_true.mpr ⟨rp, hrp.1, by simp⟩
  refine ⟨heq, ?_, ?_, ?_⟩
  · rw [heq, deleteDocument_result, hany, Bool.true_or, if_pos rfl]
  · intro r hr hne
    rw [heq, deleteDocument_state]
    exact mem_deleteFromCollection_of_ne s.pdf rp.meta.document_id hndPdf r hr hne
  · intro r hr hne
    rw [heq, deleteDocument_state]
    exact mem_deleteFromCollection_of_ne s.csv rp.meta.document_id hndCsv r hr hne

/-- Witness for `c10_delete_by_path_pdf_precedence`: the filename `f.csv`
present as document `d1` in the PDF collection and as document `d2` in the
CSV collection; deleting by path removes only `d1` and the CSV record
survives. -/
theorem c10_delete_by_path_pdf_precedence_witness :
    (deleteDocumentByPath
        ⟨[⟨"p1", "pdoc", [], ⟨"d1", "f.csv"⟩⟩], [⟨"c1", "cdoc", [], ⟨"d2", "f.csv"⟩⟩]⟩
        "f.csv").1
      = DmResult.deleteOk "d1" true false
    ∧ (⟨"c1", "cdoc", [], ⟨"d2", "f.csv"⟩⟩ : DbRec) ∈
        (deleteDocumentByPath
          ⟨[⟨"p1", "pdoc", [], ⟨"d1", "f.csv"⟩⟩], [⟨"c1", "cdoc", [], ⟨"d2", "f.csv"⟩⟩]⟩
          "f.csv").2.csv := by
  have h := c10_delete_by_path_pdf_precedence
    ⟨[⟨"p1", "pdoc", [], ⟨"d1", "f.csv"⟩⟩], [⟨"c1", "cdoc", [], ⟨"d2", "f.csv"⟩⟩]⟩
    "f.csv" ⟨"p1", "pdoc", [], ⟨"d1", "f.csv"⟩⟩ [] (by decide) (by decide) (by decide)
  refine ⟨h.2.1, ?_⟩
  exact h.2.2.2 ⟨"c1", "cdoc", [], ⟨"d2", "f.csv"⟩⟩ (List.mem_cons_self _ _) (by decide)

/-- A Chroma query result is sorted by ascending distance. -/
theorem chromaQuery_sorted {β : Type} (dist : β → ℚ) (k : Nat)
    (wherePred : β → Bool) (entries : List β) :
    List.Sorted (fun a b => dist a ≤ dist b)
      (chromaQuery dist k wherePred entries) := by
  haveI : IsTotal β (fun a b => dist a ≤ dist b) :=
    ⟨fun a b => le_total (dist a) (dist b)⟩
  haveI : IsTrans β (fun a b => dist a ≤ dist b) :=
    ⟨fun a b c hab hbc => le_trans hab hbc⟩
  exact List.Pairwise.sublist (List.take_sublist k _) (List.sorted_insertionSort _ _)

/-- Every row of a Chroma query result comes from the collection and passes
the `where` filter. -/
theorem chromaQuery_mem {β : Type} (dist : β → ℚ) (k : Nat)
    (wherePred : β → Bool) (entries : List β) :
    ∀ e ∈ chromaQuery dist k wherePred entries,
      e ∈ entries ∧ wherePred e = true := by
  intro e he
  have h1 : e ∈ List.insertionSort (fun a b => dist a ≤ dist b)
      (entries.filter wherePred) := List.mem_of_mem_take he
  have h2 : e ∈ entries.filter wherePred :=
    (List.perm_insertionSort _ _).mem_iff.mp h1
  exact List.mem_filter.mp h2

/-- Claim C2: confirmed.  When stage 1 returns a non-empty result list
(`top :: rest`, ascending by distance) whose best match carries a truthy
`case_id`, stage 2 queries the chunk collection filtered to exactly that
`case_id`: the chunk query's `where` predicate is the top match's id, every
returned chunk carries it (so no lower-ranked match's id is ever used), and
the top match is indeed the lowest-distance stage-1 row. -/
theorem c2_cascade_narrowing {I : Type}
    (embedFn : List (Option String) → List (Option I) → Except String (List ℚ))
    (distCase : List ℚ → CaseEntry → ℚ) (distChunk : List ℚ → ChunkEntry → ℚ)
    (caseColl : List CaseEntry) (chunkColl : List ChunkEntry) (k1 k2 : Nat)
    (qt : Option String) (qi : Option I)
    (top : CaseEntry) (rest : List CaseEntry) (qe1 : List ℚ)
    (hemb1 : embedFn [qt] [qi] = .ok qe1)
    (hcase : caseLevelRetrieval embedFn distCase caseColl k1 qt qi
      = .ok (top :: rest))
    (cid : String) (hcid : top.meta.case_id = some cid)
    (hne : (cid == "") = false)
    (qe2 : List ℚ)
    (hemb2 : embedFn [some (qt.getD "image analysis")] [(none : Option I)]
      = .ok qe2) :
    chunkLevelRetrieval embedFn distChunk chunkColl k2 qt (top :: rest)
      = .ok (chromaQuery (distChunk qe2) k2 (fun e => e.case_id == some cid)
          chunkColl)
    ∧ (∀ res, chunkLevelRetrieval embedFn distChunk chunkColl k2 qt (top :: rest)
          = .ok res → ∀ e ∈ res, e.case_id = some cid)
    ∧ (∀ e ∈ rest, distCase qe1 top ≤ distCase qe1 e) := by
  have h1 : chunkLevelRetrieval embedFn distChunk chunkColl k2 qt (top :: rest)
      = .ok (chromaQuery (distChunk qe2) k2 (fun e => e.case_id == some cid)
          chunkColl) := by
    simp only [chunkLevelRetrieval, hcid, hne, Bool.false_eq_true, if_false, hemb2]
    rfl
  refine ⟨h1, ?_, ?_⟩
  · intro res hres e he
    rw [h1] at hres
    have hres2 : chromaQuery (distChunk qe2) k2
        (fun e => e.case_id == some cid) chunkColl = res := by
      injection hres
    rw [← hres2] at he
    have := (chromaQuery_mem _ _ _ _ e he).2
    exact beq_iff_eq.mp this
  · have hcr : chromaQuery (distCase qe1) k1 (fun _ => true) caseColl
        = top :: rest := by
      have : caseLevelRetrieval embedFn distCase caseColl k1 qt qi
          = .ok (chromaQuery (distCase qe1) k1 (fun _ => true) caseColl) := by
        simp only [caseLevelRetrieval, hemb1]
        rfl
      rw [this] at hcase
      injection hcase
    have hsorted : List.Sorted (fun a b => distCase qe1 a ≤ distCase qe1 b)
        (top :: rest) := by
      rw [← hcr]
      exact chromaQuery_sorted _ _ _ _
    exact List.rel_of_sorted_cons hsorted

/-- Witness for `c2_cascade_narrowing`: units A (distance 0) and B
(distance 1); stage 2 returns only the chunk carrying A's id. -/
theorem c2_cascade_narrowing_witness :
    chunkLevelRetrieval (I := Unit) (fun _ _ => .ok [1])
        (fun _ _ => (0 : ℚ)) [⟨"docA", some "A"⟩, ⟨"docB", some "B"⟩] 5
        (some "q")
        [⟨"caseA", ⟨some "A", none⟩⟩, ⟨"caseB", ⟨some "B", none⟩⟩]
      = .ok [⟨"docA", some "A"⟩] := by
  have h := c2_cascade_narrowing (I := Unit) (fun _ _ => .ok [1])
    (fun _ e => if e.document == "caseA" then (0 : ℚ) else 1) (fun _ _ => (0 : ℚ))
    [⟨"caseA", ⟨some "A", none⟩⟩, ⟨"caseB", ⟨some "B", none⟩⟩]
    [⟨"docA", some "A"⟩, ⟨"docB", some "B"⟩] 2 5 (some "q") none
    ⟨"caseA", ⟨some "A", none⟩⟩ [⟨"caseB", ⟨some "B", none⟩⟩] [1] rfl
    rfl "A" rfl rfl [1] rfl
  rw [h.1]
  rfl

/-- Claim C3: false on the code.  With an empty coarse collection (stage 1
returns zero matches for the query `"q"`), `MultimodalRAGChain.invoke` does
skip stage 2 and does not raise, but it still invokes the answer generator:
the returned payload's `answer` is the generator's output on the empty
context (here the distinctive string `GENERATED FROM |q`), not a fixed
"no relevant content" message produced by the engine. -/
theorem c3_short_circuit_counterexample :
    mmInvoke (fun _ _ => "text_only") (fun _ _ => .ok [1])
        (fun _ _ => (0 : ℚ)) (fun _ _ => (0 : ℚ)) [] [] 3 5
        (fun ctx q => "GENERATED FROM " ++ ctx ++ "|" ++ q)
        (some "q") (none : Option Unit)
      = .ok { context := ""
              answer := "GENERATED FROM |q"
              image_paths := []
              case_results := []
              chunk_results := [] } := by
  rfl

/-- Claim C3 (amended): when stage 1 returns zero matches, the engine does
not raise and performs no stage-2 retrieval — the payload carries empty
case and chunk results whatever the chunk collection holds — but instead of
returning a "no relevant content" result it still calls the answer
generator on the empty context and returns the generator's answer. -/
theorem c3_short_circuit_amended {I : Type} (intentFn : String → Bool → String)
    (embedFn : List (Option String) → List (Option I) → Except String (List ℚ))
    (distCase : List ℚ → CaseEntry → ℚ) (distChunk : List ℚ → ChunkEntry → ℚ)
    (chunkColl : List ChunkEntry) (caseK chunkK : Nat)
    (generate : String → String → String) (qt : Option String) (qi : Option I)
    (hvalid : strTruthy qt = true ∨ qi.isSome = true)
    (hemb : ∀ ts is, ∃ v, embedFn ts is = Except.ok (v : List ℚ)) :
    mmInvoke intentFn embedFn distCase distChunk [] chunkColl caseK chunkK
        generate qt qi
      = .ok { context := ""
              answer := generate ""
                ((if pyLower (String.mk (pyStrip
                      (intentFn (qt.getD "") qi.isSome).data)) == "image_only"
                  then none else qt).getD "")
              image_paths := []
              case_results := []
              chunk_results := [] } := by
  have hcond : (!strTruthy qt && qi.isNone) = false := by
    rcases hvalid with h | h
    · rw [h]; rfl
    · have hn : qi.isNone = false := by
        cases qi with
        | none => simp at h
        | some i => rfl
      rw [hn, Bool.and_false]
  obtain ⟨qe1, hq1⟩ := hemb
    [if pyLower (String.mk (pyStrip (intentFn (qt.getD "") qi.isSome).data))
        == "image_only" then none else qt]
    [if pyLower (String.mk (pyStrip (intentFn (qt.getD "") qi.isSome).data))
        == "text_only" then none else qi]
  have hq0 : chromaQuery (distCase qe1) caseK (fun _ => true)
      ([] : List CaseEntry) = [] := by
    unfold chromaQuery
    rw [List.filter_nil,
      show List.insertionSort (fun a b => distCase qe1 a ≤ distCase qe1 b) [] = []
        from rfl]
    exact List.take_nil
  have hcase : caseLevelRetrieval embedFn distCase ([] : List CaseEntry) caseK
      (if pyLower (String.mk (pyStrip (intentFn (qt.getD "") qi.isSome).data))
          == "image_only" then none else qt)
      (if pyLower (String.mk (pyStrip (intentFn (qt.getD "") qi.isSome).data))
          == "text_only" then none else qi) = .ok [] := by
    simp only [caseLevelRetrieval, hq1]
    show Except.ok (chromaQuery (distCase qe1) caseK (fun _ => true) []) = .ok []
    rw [hq0]
  simp only [mmInvoke, hcond, Bool.false_eq_true, if_false, hcase]
  rfl

/-- Witness for `c3_short_circuit_amended` at a concrete query and a
non-empty chunk collection: the chunk collection is never consulted. -/
theorem c3_short_circuit_amended_witness :
    mmInvoke (fun _ _ => "mixed_query") (fun _ _ => .ok [1])
        (fun _ _ => (0 : ℚ)) (fun _ _ => (0 : ℚ)) [] [⟨"leftover", some "X"⟩]
        4 7 (fun ctx q => ctx ++ "<>" ++ q) (some "hello") (none : Option Unit)
      = .ok { context := ""
              answer := (if pyLower (String.mk (pyStrip
                    (((fun (_ : String) (_ : Bool) => "mixed_query") ((some "hello").getD "")
                      (none : Option Unit).isSome) : String).data)) == "image_only"
                  then none else some "hello").getD "" |> (fun q => "" ++ "<>" ++ q)
              image_paths := []
              case_results := []
              chunk_results := [] } := by
  exact c3_short_circuit_amended (fun _ _ => "mixed_query") (fun _ _ => .ok [1])
    (fun _ _ => (0 : ℚ)) (fun _ _ => (0 : ℚ)) [⟨"leftover", some "X"⟩] 4 7
    (fun ctx q => ctx ++ "<>" ++ q) (some "hello") (none : Option Unit)
    (Or.inl rfl) (fun ts is => ⟨[1], rfl⟩)

/-- Claim C4: false on the code.  The query entry point raises a
`ValueError` past the component boundary when the query is missing:
`RealEstateRAGChain.invoke` on inputs without a `"query"` key produces the
uncaught exception (modelled as `Except.error`), not an error payload. -/
theorem c4_invoke_counterexample :
    reInvoke (fun _ => []) (fun _ _ => (0 : ℚ)) (fun _ _ => (0 : ℚ)) [] [] 3 3
        (fun _ _ => "ans") none
      = .error "Query must be provided in inputs" := by
  rfl

/-- Claim C4 (amended): the document-manager operations return error dicts,
but the two query entry points raise on missing input:
`RealEstateRAGChain.invoke` raises `ValueError` exactly when the query is
falsy (missing or empty) and returns a payload for every truthy query, and
`MultimodalRAGChain.invoke` raises `ValueError` when both the text and the
image are absent (falsy). -/
theorem c4_invoke_raises_amended {I : Type} (embed : String → List ℚ)
    (distPdf distCsv : List ℚ → RagEntry → ℚ) (pdfColl csvColl : List RagEntry)
    (pdfK csvK : Nat) (generate : String → String → String)
    (intentFn : String → Bool → String)
    (embedFn : List (Option String) → List (Option I) → Except String (List ℚ))
    (distCase : List ℚ → CaseEntry → ℚ) (distChunk : List ℚ → ChunkEntry → ℚ)
    (caseColl : List CaseEntry) (chunkColl : List ChunkEntry)
    (caseK chunkK : Nat) (generate2 : String → String → String) :
    (∀ inputs, strTruthy inputs = false →
        reInvoke embed distPdf distCsv pdfColl csvColl pdfK csvK generate inputs
          = .error "Query must be provided in inputs")
    ∧ (∀ inputs, strTruthy inputs = true →
        ∃ r, reInvoke embed distPdf distCsv pdfColl csvColl pdfK csvK generate
          inputs = .ok r)
    ∧ (∀ (qt : Option String) (qi : Option I),
        strTruthy qt = false → qi = none →
        mmInvoke intentFn embedFn distCase distChunk caseColl chunkColl caseK
            chunkK generate2 qt qi
          = .error "Query must contain at least 'input' text or an 'image'.") := by
  refine ⟨?_, ?_, ?_⟩
  · intro inputs h
    simp only [reInvoke, h, Bool.not_false, if_true]
    rfl
  · intro inputs h
    simp only [reInvoke, h, Bool.not_true, Bool.false_eq_true, if_false]
    split
    · exact ⟨_, rfl⟩
    · exact ⟨_, rfl⟩
  · intro qt qi h hq
    subst hq
    simp only [mmInvoke, h, Bool.not_false, Option.isNone_none, Bool.and_true,
      if_true]
    rfl

/-- Witness for `c4_invoke_raises_amended`: an empty-string query raises,
a real query answers. -/
theorem c4_invoke_raises_amended_witness :
    reInvoke (fun _ => []) (fun _ _ => (0 : ℚ)) (fun _ _ => (0 : ℚ)) [] [] 3 3
        (fun _ _ => "ans") (some "")
      = .error "Query must be provided in inputs"
    ∧ (reInvoke (fun _ => []) (fun _ _ => (0 : ℚ)) (fun _ _ => (0 : ℚ))
        [] [] 3 3 (fun _ _ => "ans") (some "hi")).toOption.isSome = true := by
  have h := c4_invoke_raises_amended (I := Unit) (fun _ => [])
    (fun _ _ => (0 : ℚ)) (fun _ _ => (0 : ℚ)) [] [] 3 3 (fun _ _ => "ans")
    (fun _ _ => "mixed_query") (fun _ _ => .ok [1]) (fun _ _ => (0 : ℚ))
    (fun _ _ => (0 : ℚ)) [] [] 3 5 (fun _ _ => "ans2")
  refine ⟨h.1 (some "") rfl, ?_⟩
  obtain ⟨r, hr⟩ := h.2.1 (some "hi") rfl
  rw [hr]
  rfl
